import Mathlib

/-
  Verification development for the mydiff schema/data diffing engine.

  Shallow embedding of src/mydiff/__init__.py into Lean 4.  Python dicts
  produced by Database.res are modelled as ordered association lists
  (List (String × Value)); MySQL cell values as the inductive type Value
  (ints, strings, NULL); Python exceptions as the error side of Except.
  Definitions keep the names of the Python functions they embed.
-/

set_option maxHeartbeats 1000000

/-- A cell value as delivered by the MySQL driver for the column families the
comparator supports: integers, strings, or NULL (Python None). -/
inductive Value where
  | vint : Int → Value
  | vstr : String → Value
  | vnull : Value
deriving DecidableEq, Repr

/-- The Python exception kinds the embedded code can raise. -/
inductive PyError where
  | typeError : PyError
  | keyError : String → PyError
  | indexError : PyError
  | unsupportedType : String → PyError
  | notFound : String → PyError
  | notImplemented : String → PyError
deriving DecidableEq, Repr

/-- Prefix test on character lists, used to model the Python substring
operator (the `in` test on strings). -/
def startsList : List Char → List Char → Bool
  | [], _ => true
  | _ :: _, [] => false
  | a :: as, b :: bs => a == b && startsList as bs

/-- Substring containment on character lists. -/
def containsList (sub : List Char) : List Char → Bool
  | [] => startsList sub []
  | b :: bs => startsList sub (b :: bs) || containsList sub bs

/-- Python `sub in s` for strings. -/
def pyIn (sub s : String) : Bool := containsList sub.toList s.toList

/-- Python `s.startswith(pre)` for strings. -/
def pyStartsWith (s pre : String) : Bool := startsList pre.toList s.toList

/-- Python dict lookup returning an Option (models `d.get` / the `in` test). -/
def dictLookup (d : List (String × Value)) (k : String) : Option Value :=
  (d.find? (fun p => p.1 == k)).map (fun p => p.2)

/-- Python `d[k]`: raises KeyError when the key is absent. -/
def dictGet (d : List (String × Value)) (k : String) : Except PyError Value :=
  match d.find? (fun p => p.1 == k) with
  | some p => .ok p.2
  | none => .error (.keyError k)

/-- Python `k in d` for dicts. -/
def dictContains (d : List (String × Value)) (k : String) : Bool :=
  (d.find? (fun p => p.1 == k)).isSome

/-- Column metadata, from one row of `describe <table>` (class Column). -/
structure Column where
  name : String
  key : String
  auto_increment : Bool
  nullable : Bool
  dbtype : String
deriving DecidableEq, Repr

/-- Column.pk: the describe Key field contains the marker PRI. -/
def Column.pk (c : Column) : Bool := pyIn ("PRI") c.key

/-- Column.unique: the describe Key field contains the marker UNI. -/
def Column.unique (c : Column) : Bool := pyIn ("UNI") c.key

/-- One row of `show keys from <table>` (class KeyPart). -/
structure KeyPart where
  name : String
  seq : Int
  colname : String
deriving DecidableEq, Repr

/-- KeyPart.compare: equality of index name, ordinal and column name. -/
def KeyPart.compare (p q : KeyPart) : Bool :=
  p.name == q.name && p.seq == q.seq && p.colname == q.colname

/-- An index (class Key): name and kind are derived from the first part at
construction time; parts keep introspection order. -/
structure Key where
  name : String
  kind : String
  parts : List KeyPart
deriving DecidableEq, Repr

/-- Key.primary (the `self.primary` flag). -/
def Key.primary (k : Key) : Bool := k.kind == "primary"

/-- Key.compare: kinds and part counts must agree and the parts must agree
pairwise under KeyPart.compare (the indexed loop of the Python code). -/
def Key.compare (k1 k2 : Key) : Bool :=
  if k1.kind != k2.kind || k1.parts.length != k2.parts.length then false
  else (k1.parts.zip k2.parts).all (fun pq => pq.1.compare pq.2)

/-- Table metadata (class Table).  rowdata models the result of the
`select * from t order by <pks>` query issued by Table.rows: each element is
one row as an ordered column-name/value association list. -/
structure Table where
  name : String
  columns : List Column
  keys : List Key
  rowdata : List (List (String × Value))
deriving DecidableEq, Repr

/-- Table.pks: the columns classified primary, in declaration order. -/
def Table.pks (t : Table) : List Column := t.columns.filter (fun c => c.pk)

/-- Lookup of Table.column as an Option (the try/except NotFound pattern at
the call sites is modelled by matching on this Option). -/
def Table.columnOpt (t : Table) (nm : String) : Option Column :=
  t.columns.find? (fun c => c.name == nm)

/-- Table.column: first column of that name, NotFoundException otherwise. -/
def Table.column (t : Table) (nm : String) : Except PyError Column :=
  match t.columnOpt nm with
  | some col => .ok col
  | none => .error (.notFound ("Column [" ++ nm ++ "] not found in table [" ++
      t.name ++ "]."))

/-- Lookup of Table.key as an Option. -/
def Table.keyOpt (t : Table) (nm : String) : Option Key :=
  t.keys.find? (fun k => k.name == nm)

/-- Table.key: first key of that name, NotFoundException otherwise. -/
def Table.key (t : Table) (nm : String) : Except PyError Key :=
  match t.keyOpt nm with
  | some k => .ok k
  | none => .error (.notFound ("Key [" ++ nm ++ "] not found in table [" ++
      t.name ++ "]."))

/-- One data row (class Row): the owning table plus the column/value dict. -/
structure Row where
  table : Table
  data : List (String × Value)
deriving DecidableEq, Repr

/-- Table.rows: the ordered row stream of the table. -/
def Table.rows (t : Table) : List Row := t.rowdata.map (fun d => Row.mk t d)

/-- Row.val: dict access into the row data. -/
def Row.val (row : Row) (colname : String) : Except PyError Value :=
  dictGet row.data colname

/-- Row.md: column metadata lookup by name, raising when absent. -/
def Row.md (row : Row) (colname : String) : Except PyError Column :=
  match row.table.columns.find? (fun c => c.name == colname) with
  | some col => .ok col
  | none => .error (.notFound ("Column [" ++ colname ++ "] not found in table [" ++
      row.table.name ++ "]."))

/-- Row.dbtype: native type string of the named column. -/
def Row.dbtype (row : Row) (colname : String) : Except PyError String := do
  let col ← row.md colname
  .ok col.dbtype

/-- A database (class Database): the constructed tables.  The table-name list
captured from `show tables` is exactly the names of these tables, in order,
since Table objects are built from that list. -/
structure Database where
  tables : List Table
deriving DecidableEq, Repr

/-- Database.tablenames, as recorded at construction. -/
def Database.tablenames (db : Database) : List String :=
  db.tables.map (fun t => t.name)

/-- Lookup of Database.table as an Option. -/
def Database.tableOpt (db : Database) (nm : String) : Option Table :=
  db.tables.find? (fun t => t.name == nm)

/-- Database.table: first table of that name, NotFoundException otherwise. -/
def Database.table (db : Database) (nm : String) : Except PyError Table :=
  match db.tableOpt nm with
  | some t => .ok t
  | none => .error (.notFound ("Table [" ++ nm ++ "] not found."))

/-- Lexicographic strict comparison of character lists, the Python string
ordering (written structurally so that it evaluates inside the kernel). -/
def charListLt : List Char → List Char → Bool
  | [], [] => false
  | [], _ :: _ => true
  | _ :: _, [] => false
  | a :: as, b :: bs => decide (a < b) || (a == b && charListLt as bs)

/-- Python `a > b` on row values: defined within the int and within the str
family, a TypeError otherwise (in particular whenever either side is None). -/
def pyGt : Value → Value → Except PyError Bool
  | .vint a, .vint b => .ok (decide (b < a))
  | .vstr a, .vstr b => .ok (charListLt b.toList a.toList)
  | _, _ => .error .typeError

/-- Python `a == b` on row values: never raises; values of different shapes
(or one side None) are simply unequal, None equals None. -/
def pyEq : Value → Value → Bool
  | .vint a, .vint b => a == b
  | .vstr a, .vstr b => a == b
  | .vnull, .vnull => true
  | _, _ => false

/-- sort_val: compare val1 to val2 treating both as dbtype.  Returns 1 when
val2 sorts after val1, 0 on equality, -1 otherwise; only int and varchar
native types are supported.  The greater-than test is evaluated first, as in
the Python conditional expression. -/
def sort_val (dbtype : String) (val1 val2 : Value) : Except PyError Int :=
  if pyStartsWith dbtype ("int") || pyStartsWith dbtype ("varchar") then do
    let gt ← pyGt val2 val1
    .ok (if gt then 1 else if pyEq val2 val1 then 0 else -1)
  else .error (.unsupportedType ("Unable to compare dbtype [" ++ dbtype ++ "]."))

/-- The indexed loop of sort_pks: walk both pk column lists in step; the
first non-zero column comparison decides.  Running past the end of the second
list is an IndexError, as in Python. -/
def sort_pks_go (row1 row2 : Row) : List Column → List Column → Except PyError Int
  | [], _ => .ok 0
  | col1 :: rest1, pks2 => do
    let val1 ← dictGet row1.data col1.name
    match pks2 with
    | [] => .error .indexError
    | col2 :: rest2 => do
      let val2 ← dictGet row2.data col2.name
      let order ← sort_val col1.dbtype val1 val2
      if order != 0 then .ok order else sort_pks_go row1 row2 rest1 rest2

/-- sort_pks: compare the primary keys of two rows. -/
def sort_pks (row1 row2 : Row) : Except PyError Int :=
  sort_pks_go row1 row2 row1.table.pks row2.table.pks

/-- The single-quote character, used by the literal escaper. -/
def squot : String := String.singleton (Char.ofNat 39)

/-- Per-character escape table of the MySQL driver (pymysql escape_string). -/
def escTable (c : Char) : String :=
  if c = Char.ofNat 0 then "\\0"
  else if c = Char.ofNat 10 then "\\n"
  else if c = Char.ofNat 13 then "\\r"
  else if c = Char.ofNat 26 then "\\Z"
  else if c = Char.ofNat 39 then "\\" ++ squot
  else if c = Char.ofNat 34 then "\\\""
  else if c = Char.ofNat 92 then "\\\\"
  else String.singleton c

/-- pymysql escape_string: escape every character of a string literal. -/
def escape_string (s : String) : String := String.join (s.toList.map escTable)

/-- pymysql escape_item for the value shapes the comparator produces:
None renders as NULL, ints via their decimal form, strings quoted with the
driver escaping. -/
def escape_item : Value → String
  | .vnull => "NULL"
  | .vint n => toString n
  | .vstr s => squot ++ escape_string s ++ squot

/-- SqlRenderer.val. -/
def SqlRenderer.val (v : Value) : String := escape_item v

/-- The term list of SqlRenderer.pk_row: one name=value term per pk column,
values taken from the given row (KeyError when a pk column is absent). -/
def pkTerms (row : Row) : List Column → Except PyError (List String)
  | [] => .ok []
  | pk :: rest => do
    let v ← dictGet row.data pk.name
    let more ← pkTerms row rest
    .ok ((pk.name ++ "=" ++ SqlRenderer.val v) :: more)

/-- SqlRenderer.pk_row: the where clause over the primary-key columns. -/
def SqlRenderer.pk_row (row : Row) : Except PyError String := do
  let terms ← pkTerms row row.table.pks
  .ok ("where " ++ String.intercalate (" and ") terms)

/-- The set-clause list of SqlRenderer.update. -/
def setTerms (row : Row) : List String → Except PyError (List String)
  | [] => .ok []
  | c :: rest => do
    let v ← dictGet row.data c
    let more ← setTerms row rest
    .ok ((c ++ "=" ++ SqlRenderer.val v) :: more)

/-- SqlRenderer.update: one update statement setting the given columns from
the row, keyed by the primary-key predicate of that row. -/
def SqlRenderer.update (row : Row) (updates : List String) : Except PyError String := do
  let sets ← setTerms row updates
  let w ← SqlRenderer.pk_row row
  .ok ("update " ++ row.table.name ++ " set " ++ String.intercalate (",") sets ++
       " " ++ w ++ ";")

/-- The value list of SqlRenderer.insert, across the table columns. -/
def valTerms (row : Row) : List Column → Except PyError (List String)
  | [] => .ok []
  | col :: rest => do
    let v ← dictGet row.data col.name
    let more ← valTerms row rest
    .ok (SqlRenderer.val v :: more)

/-- SqlRenderer.insert: full-row insert across the table column list. -/
def SqlRenderer.insert (row : Row) : Except PyError String := do
  let cols := String.intercalate (",") (row.table.columns.map (fun c => c.name))
  let vals ← valTerms row row.table.columns
  .ok ("insert into " ++ row.table.name ++ " (" ++ cols ++ ") values (" ++
       String.intercalate (",") vals ++ ");")

/-- SqlRenderer.delete: delete keyed by the primary-key predicate. -/
def SqlRenderer.delete (row : Row) : Except PyError String := do
  let w ← SqlRenderer.pk_row row
  .ok ("delete from " ++ row.table.name ++ " " ++ w ++ ";")

/-- SqlRenderer.drop_table. -/
def SqlRenderer.drop_table (t : Table) : String := "drop table " ++ t.name ++ ";"

/-- SqlRenderer.column: column definition fragment. -/
def SqlRenderer.column (c : Column) : String :=
  c.name ++ " " ++ c.dbtype ++
  (if !c.nullable then " not null" else "") ++
  (if c.auto_increment then " auto_increment" else "")

/-- SqlRenderer.keycols: the referenced column names of a key (each part
references the column of its colname). -/
def SqlRenderer.keycols (k : Key) : String :=
  String.intercalate (",") (k.parts.map (fun p => p.colname))

/-- SqlRenderer.key: inline key definition fragment. -/
def SqlRenderer.key (k : Key) : String :=
  (if k.kind != "multiple" then k.kind ++ " " else "") ++
  "key(" ++ SqlRenderer.keycols k ++ ")"

/-- SqlRenderer.keymod: renders one (action, key) pair; an action outside
drop/add is the fatal malformed-keymod case. -/
def SqlRenderer.keymod : String × Key → Except PyError String
  | (action, key) =>
    if action == "drop" then
      .ok (if key.primary then "drop primary key" else "drop key " ++ key.name)
    else if action == "add" then
      .ok (if key.primary then "add " ++ SqlRenderer.key key
        else if key.kind == "multiple" then
          "add index " ++ key.name ++ " (" ++ SqlRenderer.keycols key ++ ")"
        else "add constraint " ++ key.name ++ " " ++ SqlRenderer.key key)
    else .error (.notImplemented ("Unrecognized keymod action [" ++ action ++ "]"))

/-- Rendering of a keymod list, propagating the malformed-keymod error. -/
def keymodStrs : List (String × Key) → Except PyError (List String)
  | [] => .ok []
  | km :: rest => do
    let s ← SqlRenderer.keymod km
    let more ← keymodStrs rest
    .ok (s :: more)

/-- SqlRenderer.create_table: all columns then all keys, inline. -/
def SqlRenderer.create_table (t : Table) : String :=
  let cols := t.columns.map SqlRenderer.column
  let keys := t.keys.map SqlRenderer.key
  "create table " ++ t.name ++ " (" ++ String.intercalate (",") (cols ++ keys) ++ ");"

/-- SqlRenderer.alter_table: modification order is deletions, changes,
additions, then key modifications, as in the Python mods concatenation. -/
def SqlRenderer.alter_table (t : Table) (additions changes deletions : List Column)
    (keymods : List (String × Key)) : Except PyError String := do
  let a := additions.map (fun c => "add " ++ SqlRenderer.column c)
  let c := changes.map (fun col => "change " ++ col.name ++ " " ++ SqlRenderer.column col)
  let d := deletions.map (fun col => "drop " ++ col.name)
  let keys ← keymodStrs keymods
  .ok ("alter table " ++ t.name ++ " " ++
       String.intercalate (",") (d ++ c ++ a ++ keys) ++ ";")

/-- The column loop of compare_rows: for each column of the target row data,
mark it when it is absent from the source row data or when sort_val reports
inequality (membership is tested before any value is compared, exactly as the
Python loop does). -/
def changedCols (row1 row2 : Row) : List (String × Value) → Except PyError (List String)
  | [] => .ok []
  | (col, _) :: rest =>
    match dictLookup row1.data col with
    | none => do
        let more ← changedCols row1 row2 rest
        .ok (col :: more)
    | some val1 => do
        let t ← Row.dbtype row2 col
        let val2 ← dictGet row2.data col
        let s ← sort_val t val1 val2
        let more ← changedCols row1 row2 rest
        .ok (if s == 0 then more else col :: more)

/-- compare_rows: None when no column changed, otherwise the rendered update
of the changed columns against the target row. -/
def compare_rows (row1 row2 : Row) : Except PyError (Option String) := do
  let updates ← changedCols row1 row2 row2.data
  if updates.length == 0 then .ok none
  else do
    let stmt ← SqlRenderer.update row2 updates
    .ok (some stmt)

/-- The body of the compare_data merge loop.  The fuel argument models the
`for i in range(10)` iteration bound of the Python source: each recursive call
is one loop iteration, and exhausting the fuel ends the loop with the results
accumulated so far.  Cursor advancement and the dispatch on the pk ordering
follow the source line by line. -/
def compare_data_loop : Nat → List Row → List Row → Int → Option Row → Option Row →
    List (Option String) → Except PyError (List (Option String))
  | 0, _, _, _, _, _, ret => .ok ret
  | fuel + 1, gen1, gen2, last_sort, row1, row2, ret =>
    let s1 := if last_sort ≥ 0 then (gen1.head?, gen1.tail) else (row1, gen1)
    let s2 := if last_sort ≤ 0 then (gen2.head?, gen2.tail) else (row2, gen2)
    match s1.1, s2.1 with
    | none, none => .ok ret
    | none, some r2 => do
        let n ← SqlRenderer.insert r2
        compare_data_loop fuel s1.2 s2.2 (-1) none (some r2) (ret ++ [some n])
    | some r1, none => do
        let n ← SqlRenderer.delete r1
        compare_data_loop fuel s1.2 s2.2 1 (some r1) none (ret ++ [some n])
    | some r1, some r2 => do
        let s ← sort_pks r1 r2
        if s = 0 then do
          let n ← compare_rows r1 r2
          compare_data_loop fuel s1.2 s2.2 s (some r1) (some r2) (ret ++ [n])
        else if s > 0 then do
          let n ← SqlRenderer.delete r1
          compare_data_loop fuel s1.2 s2.2 s (some r1) (some r2) (ret ++ [some n])
        else do
          let n ← SqlRenderer.insert r2
          compare_data_loop fuel s1.2 s2.2 s (some r1) (some r2) (ret ++ [some n])

/-- compare_data: merge-compare the two row streams, starting with last_sort
equal and both cursors empty, for at most ten loop iterations. -/
def compare_data (t1 t2 : Table) : Except PyError (List (Option String)) :=
  compare_data_loop 10 t1.rows t2.rows 0 none none []

/-- compare_columns: the target column when auto_increment, nullability or
native type differ, None otherwise. -/
def compare_columns (c1 c2 : Column) : Option Column :=
  if c1.auto_increment != c2.auto_increment || c1.nullable != c2.nullable ||
     c1.dbtype != c2.dbtype then some c2
  else none

/-- First loop of compare_table_keys: per source key, drop and re-add on a
signature mismatch with the same-named target key, plain drop when the name
is absent from the target. -/
def ctkFirst (t2 : Table) : List Key → List (String × Key)
  | [] => []
  | key1 :: rest =>
    match t2.keyOpt key1.name with
    | some key2 =>
        (if !(key1.compare key2) then [("drop", key1), ("add", key2)] else []) ++
        ctkFirst t2 rest
    | none => ("drop", key1) :: ctkFirst t2 rest

/-- Second loop of compare_table_keys: add every target key whose name is
absent from the source. -/
def ctkSecond (t1 : Table) : List Key → List (String × Key)
  | [] => []
  | key2 :: rest =>
    match t1.keyOpt key2.name with
    | some _ => ctkSecond t1 rest
    | none => ("add", key2) :: ctkSecond t1 rest

/-- compare_table_keys: the keymod list in tuple form. -/
def compare_table_keys (t1 t2 : Table) : List (String × Key) :=
  ctkFirst t2 t1.keys ++ ctkSecond t1 t2.keys

/-- The first column loop of compare_tables, producing the changes and the
deletions in source declaration order (one pass, as in the Python loop). -/
def colDeltas (t2 : Table) : List Column → List Column × List Column
  | [] => ([], [])
  | col1 :: rest =>
    let cd := colDeltas t2 rest
    match t2.columnOpt col1.name with
    | some col2 =>
      match compare_columns col1 col2 with
      | some change => (change :: cd.1, cd.2)
      | none => cd
    | none => (cd.1, col1 :: cd.2)

/-- The second column loop of compare_tables: target-only columns. -/
def colAdditions (t1 : Table) : List Column → List Column
  | [] => []
  | col2 :: rest =>
    match t1.columnOpt col2.name with
    | some _ => colAdditions t1 rest
    | none => col2 :: colAdditions t1 rest

/-- compare_tables: None when no column or key delta exists, otherwise the
single rendered alter statement for the pair. -/
def compare_tables (t1 t2 : Table) : Except PyError (Option String) := do
  let cd := colDeltas t2 t1.columns
  let additions := colAdditions t1 t2.columns
  let keymods := compare_table_keys t1 t2
  if additions.length == 0 && cd.1.length == 0 && cd.2.length == 0 &&
     keymods.length == 0 then
    .ok none
  else do
    let stmt ← SqlRenderer.alter_table t2 additions cd.1 cd.2 keymods
    .ok (some stmt)

/-- First loop of compare_databases: per source table name, the schema diff
against the same-named target table, or a drop when the target lacks it. -/
def cdbFirst (db1 db2 : Database) : List String → Except PyError (List (Option String))
  | [] => .ok []
  | t1 :: rest => do
    let entry ←
      match db2.tableOpt t1 with
      | some t2 => do
          let tbl1 ← Database.table db1 t1
          compare_tables tbl1 t2
      | none => do
          let tbl1 ← Database.table db1 t1
          Except.ok (some (SqlRenderer.drop_table tbl1))
    let more ← cdbFirst db1 db2 rest
    .ok (entry :: more)

/-- Second loop of compare_databases: create every target-only table. -/
def cdbSecond (db1 db2 : Database) : List String → Except PyError (List (Option String))
  | [] => .ok []
  | t2 :: rest =>
    match db1.tableOpt t2 with
    | some _ => cdbSecond db1 db2 rest
    | none => do
        let tbl2 ← Database.table db2 t2
        let more ← cdbSecond db1 db2 rest
        .ok (some (SqlRenderer.create_table tbl2) :: more)

/-- compare_databases: the schema statement stream (None entries are the
no-change table pairs, filtered later by the orchestrator). -/
def compare_databases (db1 db2 : Database) : Except PyError (List (Option String)) := do
  let a ← cdbFirst db1 db2 db1.tablenames
  let b ← cdbSecond db1 db2 db2.tablenames
  .ok (a ++ b)

/-- Inner loop of the data phase of __compare: for one source table name,
run compare_data against every equal target table name. -/
def dataInner (db1 db2 : Database) (t1 : String) : List String → Except PyError (List String)
  | [] => .ok []
  | t2 :: rest => do
    let here ←
      if t1 == t2 then do
        let tbl1 ← Database.table db1 t1
        let tbl2 ← Database.table db2 t2
        let cs ← compare_data tbl1 tbl2
        Except.ok (cs.filterMap id)
      else Except.ok []
    let more ← dataInner db1 db2 t1 rest
    .ok (here ++ more)

/-- Outer loop of the data phase of __compare. -/
def dataOuter (db1 db2 : Database) : List String → Except PyError (List String)
  | [] => .ok []
  | t1 :: rest => do
    let here ← dataInner db1 db2 t1 db2.tablenames
    let more ← dataOuter db1 db2 rest
    .ok (here ++ more)

/-- The orchestrator __compare: schema phase then data phase, None entries
filtered from the yielded stream. -/
def «__compare» (db1 db2 : Database) : Except PyError (List String) := do
  let schema ← compare_databases db1 db2
  let dat ← dataOuter db1 db2 db1.tablenames
  .ok (schema.filterMap id ++ dat)

/-! Specification-side definitions and helper material. -/

/-- Decidable equality for Except results, so concrete runs can be checked. -/
instance {ε α : Type} [DecidableEq ε] [DecidableEq α] : DecidableEq (Except ε α)
  | .error e, .error f =>
    if h : e = f then isTrue (by rw [h]) else isFalse (fun hc => h (by injection hc))
  | .error _, .ok _ => isFalse (fun hc => Except.noConfusion hc)
  | .ok _, .error _ => isFalse (fun hc => Except.noConfusion hc)
  | .ok a, .ok b =>
    if h : a = b then isTrue (by rw [h]) else isFalse (fun hc => h (by injection hc))

/-- Three-way comparison of a linear order, the mathematical reading of the
sort_val conditional: 1 when the first argument sorts strictly first, 0 on
equality, -1 otherwise. -/
def cmp3 {α : Type} [LinearOrder α] (a b : α) : Int :=
  if a < b then 1 else if b = a then 0 else -1

/-- Whether a pair of values belongs to one supported primitive family. -/
def sameFamily : Value → Value → Bool
  | .vint _, .vint _ => true
  | .vstr _, .vstr _ => true
  | _, _ => false

/-- An integer column used by concrete test databases. -/
def colIdPk : Column :=
  { name := "id", key := "PRI", auto_increment := false, nullable := false,
    dbtype := "int(11)" }

/-- A nullable varchar column used by concrete test databases. -/
def colNameVarchar : Column :=
  { name := "name", key := "", auto_increment := false, nullable := true,
    dbtype := "varchar(32)" }

/-- Rows with primary keys 1..n over the single column id. -/
def rowsUpTo (n : Nat) : List (List (String × Value)) :=
  (List.range n).map (fun i => [("id", Value.vint (Int.ofNat i + 1))])

/-- Helper lemmas about the supported branch of sort_val. -/
theorem sort_val_supported (dbtype : String)
    (h : (pyStartsWith dbtype ("int") || pyStartsWith dbtype ("varchar")) = true)
    (v1 v2 : Value) :
    sort_val dbtype v1 v2 =
      (do
        let gt ← pyGt v2 v1
        Except.ok (if gt then 1 else if pyEq v2 v1 then 0 else -1)) := by
  simp only [sort_val, h, if_true]

theorem sort_val_unsupported (dbtype : String)
    (h1 : pyStartsWith dbtype ("int") = false)
    (h2 : pyStartsWith dbtype ("varchar") = false) (v1 v2 : Value) :
    sort_val dbtype v1 v2 =
      Except.error (PyError.unsupportedType
        ("Unable to compare dbtype [" ++ dbtype ++ "].")) := by
  simp only [sort_val, h1, h2, Bool.or_self, if_false, Bool.false_eq_true]

theorem except_bind_ok {ε α β : Type} (x : α) (k : α → Except ε β) :
    (do
      let y ← Except.ok x
      k y : Except ε β) = k x := rfl

theorem sort_val_int_eq (dbtype : String)
    (h : (pyStartsWith dbtype ("int") || pyStartsWith dbtype ("varchar")) = true)
    (a b : Int) :
    sort_val dbtype (Value.vint a) (Value.vint b) = Except.ok (cmp3 a b) := by
  rw [sort_val_supported dbtype h]
  simp only [pyGt, pyEq, except_bind_ok, cmp3]
  by_cases hab : a < b
  · simp [hab]
  · by_cases hba : b = a <;> simp [hab, hba]

theorem charListLt_iff (as bs : List Char) : charListLt as bs = true ↔ as < bs := by
  induction as generalizing bs with
  | nil =>
    cases bs with
    | nil =>
      refine iff_of_false (by simp [charListLt]) ?_
      intro h
      cases h
    | cons b bs =>
      refine iff_of_true rfl ?_
      exact List.Lex.nil
  | cons a as ih =>
    cases bs with
    | nil =>
      refine iff_of_false (by simp [charListLt]) ?_
      intro h
      cases h
    | cons b bs =>
      constructor
      · intro h
        rw [charListLt, Bool.or_eq_true] at h
        rcases h with h1 | h1
        · exact List.Lex.rel (of_decide_eq_true h1)
        · rw [Bool.and_eq_true] at h1
          obtain ⟨heq, hrec⟩ := h1
          have hab : a = b := by simpa using heq
          subst hab
          exact List.Lex.cons ((ih bs).mp hrec)
      · intro h
        cases h with
        | cons h2 =>
          rw [charListLt, Bool.or_eq_true]
          exact Or.inr (by
            rw [Bool.and_eq_true]
            exact ⟨by simp, (ih _).mpr h2⟩)
        | rel h2 =>
          rw [charListLt, Bool.or_eq_true]
          exact Or.inl (decide_eq_true h2)

theorem charListLt_eq_decide (a b : String) :
    charListLt a.toList b.toList = decide (a < b) := by
  by_cases h : a < b
  · rw [(charListLt_iff a.toList b.toList).mpr (String.lt_iff_toList_lt.mp h),
      decide_eq_true h]
  · have h2 : charListLt a.toList b.toList = false := by
      cases hc : charListLt a.toList b.toList
      · rfl
      · exact absurd (String.lt_iff_toList_lt.mpr ((charListLt_iff _ _).mp hc)) h
    rw [h2, decide_eq_false h]

theorem sort_val_str_eq (dbtype : String)
    (h : (pyStartsWith dbtype ("int") || pyStartsWith dbtype ("varchar")) = true)
    (a b : String) :
    sort_val dbtype (Value.vstr a) (Value.vstr b) = Except.ok (cmp3 a b) := by
  rw [sort_val_supported dbtype h]
  simp only [pyGt, pyEq, except_bind_ok, cmp3, charListLt_eq_decide]
  by_cases hab : a < b
  · simp [hab]
  · by_cases hba : b = a <;> simp [hab, hba]

theorem cmp3_mem {α : Type} [LinearOrder α] (a b : α) :
    cmp3 a b = 1 ∨ cmp3 a b = 0 ∨ cmp3 a b = -1 := by
  unfold cmp3; split_ifs <;> simp

theorem cmp3_antisym {α : Type} [LinearOrder α] (a b : α) :
    cmp3 b a = -cmp3 a b := by
  rcases lt_trichotomy a b with h | h | h
  · have h2 : ¬ b < a := lt_asymm h
    have h3 : b ≠ a := ne_of_gt h
    have h4 : a ≠ b := ne_of_lt h
    simp [cmp3, h, h2, h3, h4]
  · subst h
    simp [cmp3, lt_irrefl]
  · have h2 : ¬ a < b := lt_asymm h
    have h3 : a ≠ b := ne_of_gt h
    have h4 : b ≠ a := ne_of_lt h
    simp [cmp3, h, h2, h3, h4]

theorem cmp3_eq_one_iff {α : Type} [LinearOrder α] (a b : α) :
    cmp3 a b = 1 ↔ a < b := by
  unfold cmp3
  split_ifs with h1 h2
  · simp [h1]
  · subst h2
    simp [lt_irrefl]
  · simp [h1]

theorem cmp3_eq_zero_iff {α : Type} [LinearOrder α] (a b : α) :
    cmp3 a b = 0 ↔ a = b := by
  unfold cmp3
  split_ifs with h1 h2
  · simp [ne_of_lt h1]
  · simp [h2.symm]
  · constructor
    · intro hc
      exact absurd hc (by decide)
    · intro hc
      exact absurd hc.symm h2

theorem except_bind_error {ε α β : Type} (e : ε) (k : α → Except ε β) :
    (do
      let y ← Except.error e
      k y : Except ε β) = Except.error e := rfl

theorem sort_val_ok_shapes (dbtype : String) (v1 v2 : Value) (r : Int)
    (h : sort_val dbtype v1 v2 = Except.ok r) :
    (pyStartsWith dbtype ("int") || pyStartsWith dbtype ("varchar")) = true ∧
    sameFamily v1 v2 = true := by
  by_cases hb : (pyStartsWith dbtype ("int") || pyStartsWith dbtype ("varchar")) = true
  · refine ⟨hb, ?_⟩
    rw [sort_val_supported dbtype hb] at h
    cases v1 <;> cases v2 <;>
      simp_all [pyGt, except_bind_ok, except_bind_error, sameFamily]
  · rw [sort_val] at h
    rw [if_neg hb] at h
    exact absurd h (by simp)

/-- The Python concrete tables used by the defect evaluations: a table shape
with the single int primary-key column id, and row sets of 10 and 11 rows. -/
def tableEmptySrc : Table :=
  { name := "t", columns := [colIdPk], keys := [], rowdata := [] }

def tableTen : Table :=
  { name := "t", columns := [colIdPk], keys := [], rowdata := rowsUpTo 10 }

def tableEleven : Table :=
  { name := "t", columns := [colIdPk], keys := [], rowdata := rowsUpTo 11 }

/-- C1: the merge loop is capped at ten iterations, so a table pair with 11
actual row differences (source empty, target holding 11 rows) produces only
10 statements instead of one per difference: the loop does not run until both
cursors are exhausted.  This evaluates the embedded code at the failing
input. -/
theorem compare_data_cap_truncates :
    tableEleven.rowdata.length = 11 ∧
    (compare_data tableEmptySrc tableEleven).map
      (fun l => (l.filterMap id).length) = Except.ok 10 :=
  ⟨rfl, rfl⟩

/-- C2: with ten identical shared rows plus one extra target row, the ten
loop iterations are all consumed by the equal pairs and the expected single
INSERT (resp. DELETE on the swapped pair) is silently dropped, refuting the
one-INSERT/one-DELETE symmetry property on the embedded code. -/
theorem compare_data_symmetry_lost :
    tableEleven.rowdata = tableTen.rowdata ++ [[("id", Value.vint 11)]] ∧
    (compare_data tableTen tableEleven).map (fun l => l.filterMap id) =
      Except.ok [] ∧
    (compare_data tableEleven tableTen).map (fun l => l.filterMap id) =
      Except.ok [] :=
  ⟨rfl, by decide, by decide⟩

/-- Concrete keys differing only in index name, with equal classification,
part count, ordinal positions and column names. -/
def keyCexA : Key :=
  { name := "k1", kind := "unique", parts := [{ name := "k1", seq := 1, colname := "a" }] }

def keyCexB : Key :=
  { name := "k2", kind := "unique", parts := [{ name := "k2", seq := 1, colname := "a" }] }

/-- C4 counterexample: two keys agree in classification, part count and in
every (ordinal, column-name) pair, yet Key.compare rejects them, because
KeyPart.compare also tests the per-part index name.  So key equality is not
independent of the index name, contrary to the claim. -/
theorem Key_compare_tests_index_name :
    keyCexA.kind = keyCexB.kind ∧
    keyCexA.parts.length = keyCexB.parts.length ∧
    List.Forall₂ (fun p q : KeyPart => p.seq = q.seq ∧ p.colname = q.colname)
      keyCexA.parts keyCexB.parts ∧
    Key.compare keyCexA keyCexB = false :=
  ⟨rfl, rfl, List.Forall₂.cons ⟨rfl, rfl⟩ List.Forall₂.nil, rfl⟩

/-- C4 amended: Key.compare holds exactly when classification, part count,
and the per-part triple (index name, ordinal position, column name) all
agree — the index name of every part is compared too. -/
theorem Key_compare_iff (k1 k2 : Key) :
    Key.compare k1 k2 = true ↔
      k1.kind = k2.kind ∧ k1.parts.length = k2.parts.length ∧
      List.Forall₂ (fun p q : KeyPart =>
        p.name = q.name ∧ p.seq = q.seq ∧ p.colname = q.colname)
        k1.parts k2.parts := by
  unfold Key.compare
  split_ifs with h
  · simp only [Bool.false_eq_true, false_iff]
    rintro ⟨hkind, hlen, _⟩
    rw [Bool.or_eq_true] at h
    rcases h with hc | hc
    · exact absurd hkind (bne_iff_ne.mp hc)
    · exact absurd hlen (bne_iff_ne.mp hc)
  · have hh := h
    rw [Bool.or_eq_true] at hh
    push_neg at hh
    have hkind : k1.kind = k2.kind := by
      have := hh.1
      simpa [bne_iff_ne] using this
    have hlen : k1.parts.length = k2.parts.length := by
      have := hh.2
      simpa [bne_iff_ne] using this
    simp only [hkind, hlen, true_and]
    rw [List.all_eq_true, List.forall₂_iff_zip]
    constructor
    · intro hall
      refine ⟨hlen, fun hmem => ?_⟩
      have := hall _ hmem
      simpa [KeyPart.compare, Bool.and_eq_true, beq_iff_eq, and_assoc] using this
    · rintro ⟨_, hzip⟩ pq hpq
      have : (pq.1, pq.2) ∈ k1.parts.zip k2.parts := by
        cases pq
        exact hpq
      have h3 := hzip this
      simp [KeyPart.compare, Bool.and_eq_true, beq_iff_eq, and_assoc]
      exact h3

/-- C5: on the supported native-type families sort_val is a total three-way
comparison: for any same-family value pair it returns exactly one of
1, 0, -1; it is antisymmetric and transitive; and on any unsupported native
type string it raises the fatal unsupported-type error instead of returning
an ordering. -/
theorem sort_val_total_antisym_trans (dbtype : String) (v1 v2 v3 : Value) :
    ((pyStartsWith dbtype ("int") = true ∨ pyStartsWith dbtype ("varchar") = true) →
      sameFamily v1 v2 = true →
      ∃ r, sort_val dbtype v1 v2 = Except.ok r ∧ (r = 1 ∨ r = 0 ∨ r = -1))
    ∧ (∀ r, sort_val dbtype v1 v2 = Except.ok r →
        sort_val dbtype v2 v1 = Except.ok (-r))
    ∧ (sort_val dbtype v1 v2 = Except.ok 1 → sort_val dbtype v2 v3 = Except.ok 1 →
        sort_val dbtype v1 v3 = Except.ok 1)
    ∧ (sort_val dbtype v1 v2 = Except.ok 0 → sort_val dbtype v2 v3 = Except.ok 0 →
        sort_val dbtype v1 v3 = Except.ok 0)
    ∧ (pyStartsWith dbtype ("int") = false → pyStartsWith dbtype ("varchar") = false →
        sort_val dbtype v1 v2 = Except.error (PyError.unsupportedType
          ("Unable to compare dbtype [" ++ dbtype ++ "]."))) := by
  refine ⟨?_, ?_, ?_, ?_, ?_⟩
  · intro hsup hfam
    have hb : (pyStartsWith dbtype ("int") || pyStartsWith dbtype ("varchar")) = true := by
      rcases hsup with h | h <;> simp [h]
    cases v1 <;> cases v2 <;> simp [sameFamily] at hfam
    · rename_i a b
      exact ⟨cmp3 a b, sort_val_int_eq dbtype hb a b, cmp3_mem a b⟩
    · rename_i a b
      exact ⟨cmp3 a b, sort_val_str_eq dbtype hb a b, cmp3_mem a b⟩
  · intro r hr
    obtain ⟨hb, hfam⟩ := sort_val_ok_shapes dbtype v1 v2 r hr
    cases v1 <;> cases v2 <;> simp [sameFamily] at hfam
    · rename_i a b
      rw [sort_val_int_eq dbtype hb] at hr
      rw [sort_val_int_eq dbtype hb]
      injection hr with hr
      rw [cmp3_antisym, hr]
    · rename_i a b
      rw [sort_val_str_eq dbtype hb] at hr
      rw [sort_val_str_eq dbtype hb]
      injection hr with hr
      rw [cmp3_antisym, hr]
  · intro h12 h23
    obtain ⟨hb, hfam12⟩ := sort_val_ok_shapes dbtype v1 v2 1 h12
    obtain ⟨_, hfam23⟩ := sort_val_ok_shapes dbtype v2 v3 1 h23
    cases v1 <;> cases v2 <;> cases v3 <;> simp [sameFamily] at hfam12 hfam23
    · rename_i a b c
      rw [sort_val_int_eq dbtype hb] at h12 h23 ⊢
      injection h12 with h12
      injection h23 with h23
      exact congrArg Except.ok ((cmp3_eq_one_iff a c).mpr
        (lt_trans ((cmp3_eq_one_iff a b).mp h12) ((cmp3_eq_one_iff b c).mp h23)))
    · rename_i a b c
      rw [sort_val_str_eq dbtype hb] at h12 h23 ⊢
      injection h12 with h12
      injection h23 with h23
      exact congrArg Except.ok ((cmp3_eq_one_iff a c).mpr
        (lt_trans ((cmp3_eq_one_iff a b).mp h12) ((cmp3_eq_one_iff b c).mp h23)))
  · intro h12 h23
    obtain ⟨hb, hfam12⟩ := sort_val_ok_shapes dbtype v1 v2 0 h12
    obtain ⟨_, hfam23⟩ := sort_val_ok_shapes dbtype v2 v3 0 h23
    cases v1 <;> cases v2 <;> cases v3 <;> simp [sameFamily] at hfam12 hfam23
    · rename_i a b c
      rw [sort_val_int_eq dbtype hb] at h12 h23 ⊢
      injection h12 with h12
      injection h23 with h23
      exact congrArg Except.ok ((cmp3_eq_zero_iff a c).mpr
        (((cmp3_eq_zero_iff a b).mp h12).trans ((cmp3_eq_zero_iff b c).mp h23)))
    · rename_i a b c
      rw [sort_val_str_eq dbtype hb] at h12 h23 ⊢
      injection h12 with h12
      injection h23 with h23
      exact congrArg Except.ok ((cmp3_eq_zero_iff a c).mpr
        (((cmp3_eq_zero_iff a b).mp h12).trans ((cmp3_eq_zero_iff b c).mp h23)))
  · intro h1 h2
    exact sort_val_unsupported dbtype h1 h2 v1 v2

/-- C5 witness: the totality component at a concrete supported type and
value pair. -/
theorem sort_val_total_antisym_trans_witness :
    (pyStartsWith ("int(11)") ("int") = true ∨ pyStartsWith ("int(11)") ("varchar") = true) ∧
    sameFamily (Value.vint 1) (Value.vint 2) = true ∧
    (∃ r, sort_val ("int(11)") (Value.vint 1) (Value.vint 2) = Except.ok r ∧
      (r = 1 ∨ r = 0 ∨ r = -1)) :=
  ⟨Or.inl (by decide), by decide,
    (sort_val_total_antisym_trans ("int(11)") (Value.vint 1) (Value.vint 2)
      (Value.vint 3)).1 (Or.inl (by decide)) (by decide)⟩

/-- C10: on the supported families the comparator raises TypeError whenever
either compared value is NULL — even when both are, although plain equality
would have reported them equal, because the greater-than test runs before the
equality test — and consequently the primary-key comparison of two rows
whose leading pk values are fetched as these NULL-involving values raises the
same error instead of producing an ordering. -/
theorem sort_val_null_fatal (dbtype : String) (v1 v2 : Value)
    (hf : pyStartsWith dbtype ("int") = true ∨ pyStartsWith dbtype ("varchar") = true)
    (hn : v1 = Value.vnull ∨ v2 = Value.vnull) :
    sort_val dbtype v1 v2 = Except.error PyError.typeError
    ∧ (v1 = Value.vnull → v2 = Value.vnull → pyEq v2 v1 = true)
    ∧ (∀ (row1 row2 : Row) (col1 col2 : Column) (rest1 rest2 : List Column),
        row1.table.pks = col1 :: rest1 → row2.table.pks = col2 :: rest2 →
        col1.dbtype = dbtype →
        dictGet row1.data col1.name = Except.ok v1 →
        dictGet row2.data col2.name = Except.ok v2 →
        sort_pks row1 row2 = Except.error PyError.typeError) := by
  have hb : (pyStartsWith dbtype ("int") || pyStartsWith dbtype ("varchar")) = true := by
    rcases hf with h | h <;> simp [h]
  have herr : sort_val dbtype v1 v2 = Except.error PyError.typeError := by
    rw [sort_val_supported dbtype hb]
    rcases hn with h | h <;> subst h
    · cases v2 <;> rfl
    · cases v1 <;> rfl
  refine ⟨herr, ?_, ?_⟩
  · intro h1 h2
    subst h1
    subst h2
    rfl
  · intro row1 row2 col1 col2 rest1 rest2 hp1 hp2 hdb hg1 hg2
    unfold sort_pks
    rw [hp1, hp2]
    unfold sort_pks_go
    rw [hg1]
    rw [except_bind_ok]
    simp only [hg2, except_bind_ok, hdb, herr, except_bind_error]

/-- C10 witness: at a concrete varchar type with both values NULL, sort_val
raises while plain equality would have said equal. -/
theorem sort_val_null_fatal_witness :
    pyStartsWith ("varchar(32)") ("varchar") = true ∧
    sort_val ("varchar(32)") Value.vnull Value.vnull = Except.error PyError.typeError ∧
    pyEq Value.vnull Value.vnull = true :=
  ⟨by decide,
   (sort_val_null_fatal ("varchar(32)") Value.vnull Value.vnull
      (Or.inr (by decide)) (Or.inl rfl)).1,
   (sort_val_null_fatal ("varchar(32)") Value.vnull Value.vnull
      (Or.inr (by decide)) (Or.inl rfl)).2.1 rfl rfl⟩

/-- The first element of a list satisfying a predicate, positionally: the
list splits at that element and everything before it fails the predicate. -/
def firstWith {α : Type} (p : α → Bool) (l : List α) (x : α) : Prop :=
  ∃ l1 l2, l = l1 ++ x :: l2 ∧ p x = true ∧ ∀ y ∈ l1, p y = false

theorem find?_eq_some_iff_firstWith {α : Type} (p : α → Bool) (l : List α) (x : α) :
    l.find? p = some x ↔ firstWith p l x := by
  induction l with
  | nil =>
    simp only [List.find?_nil, firstWith]
    constructor
    · intro h
      exact absurd h (by simp)
    · rintro ⟨l1, l2, heq, _, _⟩
      exact absurd heq (by simp)
  | cons a l ih =>
    by_cases hpa : p a = true
    · rw [List.find?_cons_of_pos l hpa]
      constructor
      · intro h
        injection h with h
        subst h
        exact ⟨[], l, rfl, hpa, by simp⟩
      · rintro ⟨l1, l2, heq, hx, hfront⟩
        cases l1 with
        | nil =>
          simp only [List.nil_append, List.cons.injEq] at heq
          rw [heq.1]
        | cons b l1 =>
          simp only [List.cons_append, List.cons.injEq] at heq
          have hb := hfront b (by simp)
          rw [← heq.1, hpa] at hb
          exact absurd hb (by simp)
    · have hpa2 : p a = false := by simpa using hpa
      rw [List.find?_cons_of_neg l (by simp [hpa2])]
      rw [ih]
      constructor
      · rintro ⟨l1, l2, heq, hx, hfront⟩
        refine ⟨a :: l1, l2, by rw [heq, List.cons_append], hx, ?_⟩
        intro y hy
        rcases List.mem_cons.mp hy with h | h
        · rw [h]
          exact hpa2
        · exact hfront y h
      · rintro ⟨l1, l2, heq, hx, hfront⟩
        cases l1 with
        | nil =>
          simp only [List.nil_append, List.cons.injEq] at heq
          rw [← heq.1, hpa2] at hx
          exact absurd hx (by simp)
        | cons b l1 =>
          simp only [List.cons_append, List.cons.injEq] at heq
          exact ⟨l1, l2, heq.2, hx, fun y hy => hfront y (by simp [hy])⟩

theorem Database_table_eq_ok (db : Database) (nm : String) (tb : Table) :
    Database.table db nm = Except.ok tb ↔ Database.tableOpt db nm = some tb := by
  unfold Database.table
  cases h : Database.tableOpt db nm <;> simp

theorem Database_table_eq_err (db : Database) (nm : String) :
    (∃ msg, Database.table db nm = Except.error (PyError.notFound msg)) ↔
      Database.tableOpt db nm = none := by
  unfold Database.table
  cases h : Database.tableOpt db nm <;> simp

theorem Table_column_eq_ok (t : Table) (nm : String) (c : Column) :
    Table.column t nm = Except.ok c ↔ Table.columnOpt t nm = some c := by
  unfold Table.column
  cases h : Table.columnOpt t nm <;> simp

theorem Table_column_eq_err (t : Table) (nm : String) :
    (∃ msg, Table.column t nm = Except.error (PyError.notFound msg)) ↔
      Table.columnOpt t nm = none := by
  unfold Table.column
  cases h : Table.columnOpt t nm <;> simp

theorem Table_key_eq_ok (t : Table) (nm : String) (k : Key) :
    Table.key t nm = Except.ok k ↔ Table.keyOpt t nm = some k := by
  unfold Table.key
  cases h : Table.keyOpt t nm <;> simp

theorem Table_key_eq_err (t : Table) (nm : String) :
    (∃ msg, Table.key t nm = Except.error (PyError.notFound msg)) ↔
      Table.keyOpt t nm = none := by
  unfold Table.key
  cases h : Table.keyOpt t nm <;> simp

/-- C9: the metadata lookups are exact-name first-match searches over their
ordered lists: a successful lookup returns precisely the first entry whose
name equals the argument, and each fails with the NotFound signal exactly
when no entry of that name exists. -/
theorem metadata_lookup_first_match (db : Database) (t : Table) (nm : String) :
    (∀ tb, Database.table db nm = Except.ok tb ↔
        firstWith (fun x => x.name == nm) db.tables tb)
    ∧ ((∃ msg, Database.table db nm = Except.error (PyError.notFound msg)) ↔
        ∀ tb ∈ db.tables, tb.name ≠ nm)
    ∧ (∀ c, Table.column t nm = Except.ok c ↔
        firstWith (fun x => x.name == nm) t.columns c)
    ∧ ((∃ msg, Table.column t nm = Except.error (PyError.notFound msg)) ↔
        ∀ c ∈ t.columns, c.name ≠ nm)
    ∧ (∀ k, Table.key t nm = Except.ok k ↔
        firstWith (fun x => x.name == nm) t.keys k)
    ∧ ((∃ msg, Table.key t nm = Except.error (PyError.notFound msg)) ↔
        ∀ k ∈ t.keys, k.name ≠ nm) := by
  refine ⟨?_, ?_, ?_, ?_, ?_, ?_⟩
  · intro tb
    rw [Database_table_eq_ok]
    exact find?_eq_some_iff_firstWith _ _ _
  · rw [Database_table_eq_err]
    unfold Database.tableOpt
    rw [List.find?_eq_none]
    constructor
    · intro h tb htb
      have := h tb htb
      simpa using this
    · intro h tb htb
      simpa using h tb htb
  · intro c
    rw [Table_column_eq_ok]
    exact find?_eq_some_iff_firstWith _ _ _
  · rw [Table_column_eq_err]
    unfold Table.columnOpt
    rw [List.find?_eq_none]
    constructor
    · intro h c hc
      have := h c hc
      simpa using this
    · intro h c hc
      simpa using h c hc
  · intro k
    rw [Table_key_eq_ok]
    exact find?_eq_some_iff_firstWith _ _ _
  · rw [Table_key_eq_err]
    unfold Table.keyOpt
    rw [List.find?_eq_none]
    constructor
    · intro h k hk
      have := h k hk
      simpa using this
    · intro h k hk
      simpa using h k hk

/-- C9 witness: on an empty database no table named x exists, and the lookup
indeed fails with the NotFound signal. -/
theorem metadata_lookup_first_match_witness :
    ∃ msg, Database.table { tables := [] } "x" = Except.error (PyError.notFound msg) :=
  ((metadata_lookup_first_match { tables := [] } tableEmptySrc ("x")).2.1).mpr
    (by intro tb htb; exact absurd htb (by simp))

/-- The key deltas exactly as the spec words them: per source key a
drop/re-add on signature mismatch with the same-named target key, a drop when
the name is absent; then an add for every target-only key name — and nothing
else. -/
def keyDeltasSpec (t1 t2 : Table) : List (String × Key) :=
  (t1.keys.map (fun key1 =>
    match t2.keyOpt key1.name with
    | some key2 => if key1.compare key2 then [] else [("drop", key1), ("add", key2)]
    | none => [("drop", key1)])).flatten
  ++ ((t2.keys.filter (fun key2 => (t1.keyOpt key2.name).isNone)).map
        (fun key2 => ("add", key2)))

theorem ctkFirst_eq (t2 : Table) (l : List Key) :
    ctkFirst t2 l = (l.map (fun key1 =>
      match t2.keyOpt key1.name with
      | some key2 => if key1.compare key2 then [] else [("drop", key1), ("add", key2)]
      | none => [("drop", key1)])).flatten := by
  induction l with
  | nil => rfl
  | cons k l ih =>
    cases h : t2.keyOpt k.name with
    | some k2 =>
      by_cases hc : Key.compare k k2 = true
      · simp [ctkFirst, h, hc, ih]
      · simp [ctkFirst, h, hc, ih]
    | none => simp [ctkFirst, h, ih]

theorem ctkSecond_eq (t1 : Table) (l : List Key) :
    ctkSecond t1 l = (l.filter (fun key2 => (t1.keyOpt key2.name).isNone)).map
      (fun key2 => ("add", key2)) := by
  induction l with
  | nil => rfl
  | cons k l ih =>
    cases h : t1.keyOpt k.name with
    | some k2 => simp [ctkSecond, h, ih]
    | none => simp [ctkSecond, h, ih]

/-- C6: the key-delta computation produces exactly the spec-described keymod
sequence: per source key a (drop, source) immediately followed by
(add, target) when the same-named target key differs, a lone (drop, source)
when the name is absent from the target, then an (add, target) per
target-only key name, and nothing else. -/
theorem compare_table_keys_matches_spec (t1 t2 : Table) :
    compare_table_keys t1 t2 = keyDeltasSpec t1 t2 := by
  unfold compare_table_keys keyDeltasSpec
  rw [ctkFirst_eq, ctkSecond_eq]

/-- The changed columns exactly as the spec words them: target columns of
the source-named pairs whose auto-increment, nullability or native type
differ, in source declaration order. -/
def changedColumnsSpec (t1 t2 : Table) : List Column :=
  t1.columns.filterMap (fun col1 =>
    match t2.columnOpt col1.name with
    | some col2 => compare_columns col1 col2
    | none => none)

/-- Source columns absent from the target by name, in source order. -/
def droppedColumnsSpec (t1 t2 : Table) : List Column :=
  t1.columns.filter (fun col1 => (t2.columnOpt col1.name).isNone)

/-- Target-only columns, in target declaration order. -/
def addedColumnsSpec (t1 t2 : Table) : List Column :=
  t2.columns.filter (fun col2 => (t1.columnOpt col2.name).isNone)

theorem colDeltas_spec (t1 t2 : Table) :
    colDeltas t2 t1.columns = (changedColumnsSpec t1 t2, droppedColumnsSpec t1 t2) := by
  unfold changedColumnsSpec droppedColumnsSpec
  induction t1.columns with
  | nil => rfl
  | cons c l ih =>
    cases h : t2.columnOpt c.name with
    | some c2 =>
      cases hc : compare_columns c c2 with
      | some ch => simp [colDeltas, h, hc, ih]
      | none => simp [colDeltas, h, hc, ih]
    | none => simp [colDeltas, h, ih]

theorem colAdditions_spec (t1 t2 : Table) :
    colAdditions t1 t2.columns = addedColumnsSpec t1 t2 := by
  unfold addedColumnsSpec
  induction t2.columns with
  | nil => rfl
  | cons c l ih =>
    cases h : t1.columnOpt c.name with
    | some c2 => simp [colAdditions, h, ih]
    | none => simp [colAdditions, h, ih]

theorem ctkFirst_actions (t2 : Table) (l : List Key) :
    ∀ km ∈ ctkFirst t2 l, km.1 = "drop" ∨ km.1 = "add" := by
  induction l with
  | nil => intro km hkm; exact absurd hkm (by simp [ctkFirst])
  | cons k l ih =>
    intro km hkm
    cases h : t2.keyOpt k.name with
    | some k2 =>
      rw [ctkFirst, h] at hkm
      rcases List.mem_append.mp hkm with hm | hm
      · by_cases hc : Key.compare k k2 = true
        · rw [hc] at hm
          exact absurd hm (by simp)
        · have hc2 : Key.compare k k2 = false := by simpa using hc
          rw [hc2] at hm
          simp only [Bool.not_false, if_true] at hm
          rcases List.mem_cons.mp hm with hm2 | hm2
          · rw [hm2]
            exact Or.inl rfl
          · rcases List.mem_cons.mp hm2 with hm3 | hm3
            · rw [hm3]
              exact Or.inr rfl
            · exact absurd hm3 (by simp)
      · exact ih km hm
    | none =>
      rw [ctkFirst, h] at hkm
      rcases List.mem_cons.mp hkm with hm | hm
      · rw [hm]
        exact Or.inl rfl
      · exact ih km hm

theorem ctkSecond_actions (t1 : Table) (l : List Key) :
    ∀ km ∈ ctkSecond t1 l, km.1 = "drop" ∨ km.1 = "add" := by
  induction l with
  | nil => intro km hkm; exact absurd hkm (by simp [ctkSecond])
  | cons k l ih =>
    intro km hkm
    cases h : t1.keyOpt k.name with
    | some k2 =>
      rw [ctkSecond, h] at hkm
      exact ih km hkm
    | none =>
      rw [ctkSecond, h] at hkm
      rcases List.mem_cons.mp hkm with hm | hm
      · rw [hm]
        exact Or.inr rfl
      · exact ih km hm

theorem keymodStrs_ok (kms : List (String × Key))
    (h : ∀ km ∈ kms, km.1 = "drop" ∨ km.1 = "add") :
    ∃ strs, keymodStrs kms = Except.ok strs := by
  induction kms with
  | nil => exact ⟨[], rfl⟩
  | cons km kms ih =>
    obtain ⟨strs, hstrs⟩ := ih (fun x hx => h x (List.mem_cons_of_mem _ hx))
    obtain ⟨a, k⟩ := km
    have hkm := h (a, k) (List.mem_cons_self _ _)
    have hs : ∃ s, SqlRenderer.keymod (a, k) = Except.ok s := by
      rcases hkm with h1 | h1
      · have h1b : a = "drop" := h1
        subst h1b
        exact ⟨_, rfl⟩
      · have h1b : a = "add" := h1
        subst h1b
        exact ⟨_, rfl⟩
    obtain ⟨s, hs⟩ := hs
    exact ⟨s :: strs, by rw [keymodStrs, hs, except_bind_ok, hstrs, except_bind_ok]⟩

/-- C7: a source column with a same-named target column is marked changed
(as the target column) exactly when auto-increment, nullability or native
type differ; source-only columns are dropped and target-only columns added;
with no column or key delta the pair yields no statement, and otherwise
exactly one alter statement whose modifications appear in the fixed order
drops (source order), changes (source order), additions (target order), then
the key modifications in their computed order. -/
theorem compare_tables_correct (t1 t2 : Table) :
    (∀ c1 c2 : Column, compare_columns c1 c2 = some c2 ↔
      (c1.auto_increment ≠ c2.auto_increment ∨ c1.nullable ≠ c2.nullable ∨
       c1.dbtype ≠ c2.dbtype))
    ∧ (∀ c1 c2 c : Column, compare_columns c1 c2 = some c → c = c2)
    ∧ (changedColumnsSpec t1 t2 = [] → droppedColumnsSpec t1 t2 = [] →
       addedColumnsSpec t1 t2 = [] → compare_table_keys t1 t2 = [] →
       compare_tables t1 t2 = Except.ok none)
    ∧ (¬(changedColumnsSpec t1 t2 = [] ∧ droppedColumnsSpec t1 t2 = [] ∧
         addedColumnsSpec t1 t2 = [] ∧ compare_table_keys t1 t2 = []) →
       ∃ kstrs, keymodStrs (compare_table_keys t1 t2) = Except.ok kstrs ∧
         compare_tables t1 t2 = Except.ok (some
           ("alter table " ++ t2.name ++ " " ++
            String.intercalate (",")
              ((droppedColumnsSpec t1 t2).map (fun col => "drop " ++ col.name) ++
               (changedColumnsSpec t1 t2).map
                 (fun col => "change " ++ col.name ++ " " ++ SqlRenderer.column col) ++
               (addedColumnsSpec t1 t2).map (fun col => "add " ++ SqlRenderer.column col) ++
               kstrs) ++ ";"))) := by
  refine ⟨?_, ?_, ?_, ?_⟩
  · intro c1 c2
    by_cases h : (c1.auto_increment != c2.auto_increment ||
        c1.nullable != c2.nullable || c1.dbtype != c2.dbtype) = true
    · unfold compare_columns
      rw [if_pos h]
      constructor
      · intro _
        simpa [Bool.or_eq_true, bne_iff_ne, or_assoc] using h
      · intro _
        rfl
    · unfold compare_columns
      rw [if_neg h]
      constructor
      · intro hc
        exact absurd hc (by simp)
      · intro hd
        exfalso
        apply h
        simpa [Bool.or_eq_true, bne_iff_ne, or_assoc] using hd
  · intro c1 c2 c hc
    unfold compare_columns at hc
    split_ifs at hc
    injection hc with hc
    exact hc.symm
  · intro h1 h2 h3 h4
    have e1 : (colDeltas t2 t1.columns).1 = [] := by
      rw [colDeltas_spec]
      exact h1
    have e2 : (colDeltas t2 t1.columns).2 = [] := by
      rw [colDeltas_spec]
      exact h2
    have e3 : colAdditions t1 t2.columns = [] := by
      rw [colAdditions_spec]
      exact h3
    simp [compare_tables, e1, e2, e3, h4]
  · intro hne
    have actions : ∀ km ∈ compare_table_keys t1 t2, km.1 = "drop" ∨ km.1 = "add" := by
      intro km hkm
      unfold compare_table_keys at hkm
      rcases List.mem_append.mp hkm with hm | hm
      · exact ctkFirst_actions t2 t1.keys km hm
      · exact ctkSecond_actions t1 t2.keys km hm
    obtain ⟨kstrs, hk⟩ := keymodStrs_ok (compare_table_keys t1 t2) actions
    refine ⟨kstrs, hk, ?_⟩
    have e1 : (colDeltas t2 t1.columns).1 = changedColumnsSpec t1 t2 := by
      rw [colDeltas_spec]
    have e2 : (colDeltas t2 t1.columns).2 = droppedColumnsSpec t1 t2 := by
      rw [colDeltas_spec]
    have hcond : ((addedColumnsSpec t1 t2).length == 0 &&
        (changedColumnsSpec t1 t2).length == 0 &&
        (droppedColumnsSpec t1 t2).length == 0 &&
        (compare_table_keys t1 t2).length == 0) = false := by
      cases hb : ((addedColumnsSpec t1 t2).length == 0 &&
          (changedColumnsSpec t1 t2).length == 0 &&
          (droppedColumnsSpec t1 t2).length == 0 &&
          (compare_table_keys t1 t2).length == 0) with
      | false => rfl
      | true =>
        exfalso
        apply hne
        rw [Bool.and_eq_true, Bool.and_eq_true, Bool.and_eq_true] at hb
        obtain ⟨⟨⟨ha, hc⟩, hd⟩, hkm⟩ := hb
        refine ⟨?_, ?_, ?_, ?_⟩
        · exact List.length_eq_zero.mp (by simpa using hc)
        · exact List.length_eq_zero.mp (by simpa using hd)
        · exact List.length_eq_zero.mp (by simpa using ha)
        · exact List.length_eq_zero.mp (by simpa using hkm)
    simp only [compare_tables, e1, e2, colAdditions_spec, hcond,
      Bool.false_eq_true, if_false, SqlRenderer.alter_table, hk, except_bind_ok]

/-- Concrete table pair for the schema-differ witness: the target gains one
nullable varchar column. -/
def tblW1 : Table := { name := "t", columns := [colIdPk], keys := [], rowdata := [] }

def tblW2 : Table :=
  { name := "t", columns := [colIdPk, colNameVarchar], keys := [], rowdata := [] }

/-- C7 witness: a target-only column produces exactly one alter statement in
the fixed modification order. -/
theorem compare_tables_correct_witness :
    ¬(changedColumnsSpec tblW1 tblW2 = [] ∧ droppedColumnsSpec tblW1 tblW2 = [] ∧
      addedColumnsSpec tblW1 tblW2 = [] ∧ compare_table_keys tblW1 tblW2 = []) ∧
    (∃ kstrs, keymodStrs (compare_table_keys tblW1 tblW2) = Except.ok kstrs ∧
      compare_tables tblW1 tblW2 = Except.ok (some
        ("alter table " ++ tblW2.name ++ " " ++
         String.intercalate (",")
           ((droppedColumnsSpec tblW1 tblW2).map (fun col => "drop " ++ col.name) ++
            (changedColumnsSpec tblW1 tblW2).map
              (fun col => "change " ++ col.name ++ " " ++ SqlRenderer.column col) ++
            (addedColumnsSpec tblW1 tblW2).map (fun col => "add " ++ SqlRenderer.column col) ++
            kstrs) ++ ";"))) :=
  ⟨by decide, (compare_tables_correct tblW1 tblW2).2.2.2 (by decide)⟩

/-- The spec notion (4.4a) of a changed column for a row pair: the column is
present on the target row data and is either absent from the source row data
or compares unequal under a successful Value Ordering comparison at the
column native type. -/
def colChanged (row1 row2 : Row) (c : String) : Prop :=
  dictContains row2.data c = true ∧
    (dictLookup row1.data c = none ∨
     ∃ t v1 v2 s, dictLookup row1.data c = some v1 ∧
       Row.dbtype row2 c = Except.ok t ∧
       dictGet row2.data c = Except.ok v2 ∧
       sort_val t v1 v2 = Except.ok s ∧ s ≠ 0)

theorem dictContains_iff (d : List (String × Value)) (k : String) :
    dictContains d k = true ↔ ∃ v, (k, v) ∈ d := by
  unfold dictContains
  rw [List.find?_isSome]
  constructor
  · rintro ⟨x, hx, hp⟩
    have hk : x.1 = k := by simpa using hp
    have h2 : (x.1, x.2) ∈ d := by
      rw [Prod.mk.eta]
      exact hx
    exact ⟨x.2, hk ▸ h2⟩
  · rintro ⟨v, hv⟩
    exact ⟨(k, v), hv, by simp⟩

theorem changedCols_mem (row1 row2 : Row) (l : List (String × Value))
    (updates : List String)
    (h : changedCols row1 row2 l = Except.ok updates) :
    ∀ c, c ∈ updates ↔
      ((∃ v, (c, v) ∈ l) ∧
       (dictLookup row1.data c = none ∨
        ∃ t v1 v2 s, dictLookup row1.data c = some v1 ∧
          Row.dbtype row2 c = Except.ok t ∧
          dictGet row2.data c = Except.ok v2 ∧
          sort_val t v1 v2 = Except.ok s ∧ s ≠ 0)) := by
  induction l generalizing updates with
  | nil =>
    intro c
    simp only [changedCols] at h
    injection h with h
    subst h
    simp
  | cons p l ih =>
    obtain ⟨col, v⟩ := p
    intro c
    rw [changedCols] at h
    cases hl : dictLookup row1.data col with
    | none =>
      simp only [hl] at h
      cases hrec : changedCols row1 row2 l with
      | error e =>
        rw [hrec] at h
        exact absurd h (by simp [except_bind_error])
      | ok more =>
        rw [hrec, except_bind_ok] at h
        injection h with h
        subst h
        constructor
        · intro hc
          rcases List.mem_cons.mp hc with h1 | h1
          · subst h1
            exact ⟨⟨v, List.mem_cons_self _ _⟩, Or.inl hl⟩
          · obtain ⟨⟨v2, hv2⟩, hcond⟩ := (ih more hrec c).mp h1
            exact ⟨⟨v2, List.mem_cons_of_mem _ hv2⟩, hcond⟩
        · rintro ⟨⟨v2, hv2⟩, hcond⟩
          rcases List.mem_cons.mp hv2 with h1 | h1
          · have hceq : c = col := congrArg Prod.fst h1
            rw [hceq]
            exact List.mem_cons_self _ _
          · exact List.mem_cons_of_mem _ ((ih more hrec c).mpr ⟨⟨v2, h1⟩, hcond⟩)
    | some val1 =>
      simp only [hl] at h
      cases hdt : Row.dbtype row2 col with
      | error e =>
        rw [hdt] at h
        exact absurd h (by simp [except_bind_error])
      | ok tt =>
        rw [hdt, except_bind_ok] at h
        cases hg2 : dictGet row2.data col with
        | error e =>
          rw [hg2] at h
          exact absurd h (by simp [except_bind_error])
        | ok vv2 =>
          rw [hg2, except_bind_ok] at h
          cases hsv : sort_val tt val1 vv2 with
          | error e =>
            rw [hsv] at h
            exact absurd h (by simp [except_bind_error])
          | ok s =>
            rw [hsv, except_bind_ok] at h
            cases hrec : changedCols row1 row2 l with
            | error e =>
              rw [hrec] at h
              exact absurd h (by simp [except_bind_error])
            | ok more =>
              rw [hrec, except_bind_ok] at h
              injection h with h
              subst h
              by_cases hs0 : s = 0
              · have hbeq : (s == 0) = true := by simpa using hs0
                rw [hbeq, if_pos rfl]
                constructor
                · intro hc
                  obtain ⟨⟨v2, hv2⟩, hcond⟩ := (ih more hrec c).mp hc
                  exact ⟨⟨v2, List.mem_cons_of_mem _ hv2⟩, hcond⟩
                · rintro ⟨⟨v2, hv2⟩, hcond⟩
                  rcases List.mem_cons.mp hv2 with h1 | h1
                  · have hceq : c = col := congrArg Prod.fst h1
                    subst hceq
                    rcases hcond with hnone | ⟨t3, v13, v23, s3, hl3, hdt3, hg3, hsv3, hs3⟩
                    · rw [hl] at hnone
                      exact absurd hnone (by simp)
                    · rw [hl] at hl3
                      injection hl3 with hl3
                      rw [hdt] at hdt3
                      injection hdt3 with hdt3
                      rw [hg2] at hg3
                      injection hg3 with hg3
                      subst hl3
                      subst hdt3
                      subst hg3
                      rw [hsv] at hsv3
                      injection hsv3 with hsv3
                      apply absurd hs0
                      rw [hsv3]
                      exact hs3
                  · exact (ih more hrec c).mpr ⟨⟨v2, h1⟩, hcond⟩
              · have hbeq : (s == 0) = false := by simpa using hs0
                rw [hbeq, if_neg (by simp)]
                constructor
                · intro hc
                  rcases List.mem_cons.mp hc with h1 | h1
                  · subst h1
                    exact ⟨⟨v, List.mem_cons_self _ _⟩,
                      Or.inr ⟨tt, val1, vv2, s, hl, hdt, hg2, hsv, hs0⟩⟩
                  · obtain ⟨⟨v2, hv2⟩, hcond⟩ := (ih more hrec c).mp h1
                    exact ⟨⟨v2, List.mem_cons_of_mem _ hv2⟩, hcond⟩
                · rintro ⟨⟨v2, hv2⟩, hcond⟩
                  rcases List.mem_cons.mp hv2 with h1 | h1
                  · have hceq : c = col := congrArg Prod.fst h1
                    rw [hceq]
                    exact List.mem_cons_self _ _
                  · exact List.mem_cons_of_mem _ ((ih more hrec c).mpr ⟨⟨v2, h1⟩, hcond⟩)

theorem setTerms_forall2 (row : Row) (l : List String) (sets : List String)
    (h : setTerms row l = Except.ok sets) :
    List.Forall₂ (fun c s => ∃ v, dictGet row.data c = Except.ok v ∧
      s = c ++ "=" ++ SqlRenderer.val v) l sets := by
  induction l generalizing sets with
  | nil =>
    simp only [setTerms] at h
    injection h with h
    subst h
    exact List.Forall₂.nil
  | cons c l ih =>
    rw [setTerms] at h
    cases hg : dictGet row.data c with
    | error e =>
      rw [hg] at h
      exact absurd h (by simp [except_bind_error])
    | ok v =>
      rw [hg, except_bind_ok] at h
      cases hrec : setTerms row l with
      | error e =>
        rw [hrec] at h
        exact absurd h (by simp [except_bind_error])
      | ok more =>
        rw [hrec, except_bind_ok] at h
        injection h with h
        subst h
        exact List.Forall₂.cons ⟨v, hg, rfl⟩ (ih more hrec)

theorem pkTerms_forall2 (row : Row) (l : List Column) (terms : List String)
    (h : pkTerms row l = Except.ok terms) :
    List.Forall₂ (fun (pk : Column) s => ∃ v, dictGet row.data pk.name = Except.ok v ∧
      s = pk.name ++ "=" ++ SqlRenderer.val v) l terms := by
  induction l generalizing terms with
  | nil =>
    simp only [pkTerms] at h
    injection h with h
    subst h
    exact List.Forall₂.nil
  | cons pk l ih =>
    rw [pkTerms] at h
    cases hg : dictGet row.data pk.name with
    | error e =>
      rw [hg] at h
      exact absurd h (by simp [except_bind_error])
    | ok v =>
      rw [hg, except_bind_ok] at h
      cases hrec : pkTerms row l with
      | error e =>
        rw [hrec] at h
        exact absurd h (by simp [except_bind_error])
      | ok more =>
        rw [hrec, except_bind_ok] at h
        injection h with h
        subst h
        exact List.Forall₂.cons ⟨v, hg, rfl⟩ (ih more hrec)

/-- C3: when compare_rows succeeds, the update column set contains exactly
the columns of the target row data that are absent from the source row data
or compare unequal under Value Ordering; no statement is produced exactly
when that set is empty, and otherwise the single rendered update statement
carries one set clause per changed column (in target iteration order, with
values from the target row) and a where clause built from the primary-key
columns with values from the target row. -/
theorem compare_rows_correct (row1 row2 : Row) (res : Option String)
    (h : compare_rows row1 row2 = Except.ok res) :
    ∃ updates, changedCols row1 row2 row2.data = Except.ok updates
      ∧ (∀ c, c ∈ updates ↔ colChanged row1 row2 c)
      ∧ (res = none ↔ updates = [])
      ∧ (∀ stmt, res = some stmt →
          ∃ sets w, setTerms row2 updates = Except.ok sets ∧
            List.Forall₂ (fun c s => ∃ v, dictGet row2.data c = Except.ok v ∧
              s = c ++ "=" ++ SqlRenderer.val v) updates sets ∧
            SqlRenderer.pk_row row2 = Except.ok w ∧
            (∃ terms, pkTerms row2 row2.table.pks = Except.ok terms ∧
              List.Forall₂ (fun (pk : Column) s =>
                ∃ v, dictGet row2.data pk.name = Except.ok v ∧
                  s = pk.name ++ "=" ++ SqlRenderer.val v) row2.table.pks terms ∧
              w = "where " ++ String.intercalate (" and ") terms) ∧
            stmt = "update " ++ row2.table.name ++ " set " ++
              String.intercalate (",") sets ++ " " ++ w ++ ";") := by
  unfold compare_rows at h
  cases hcc : changedCols row1 row2 row2.data with
  | error e =>
    rw [hcc] at h
    exact absurd h (by simp [except_bind_error])
  | ok updates =>
    rw [hcc, except_bind_ok] at h
    have hmem : ∀ c, c ∈ updates ↔ colChanged row1 row2 c := by
      intro c
      rw [changedCols_mem row1 row2 row2.data updates hcc c]
      unfold colChanged
      rw [dictContains_iff]
    by_cases hu : (updates.length == 0) = true
    · rw [if_pos hu] at h
      injection h with h
      subst h
      have hupd : updates = [] := List.length_eq_zero.mp (by simpa using hu)
      refine ⟨updates, rfl, hmem, iff_of_true rfl hupd, ?_⟩
      intro stmt hst
      exact absurd hst (by simp)
    · rw [if_neg hu] at h
      cases hup : SqlRenderer.update row2 updates with
      | error e =>
        rw [hup] at h
        exact absurd h (by simp [except_bind_error])
      | ok stmt0 =>
        rw [hup, except_bind_ok] at h
        injection h with h
        subst h
        have hne : updates ≠ [] := by
          intro hc
          apply hu
          rw [hc]
          rfl
        refine ⟨updates, rfl, hmem, iff_of_false (by simp) hne, ?_⟩
        intro stmt hst
        injection hst with hst
        subst hst
        unfold SqlRenderer.update at hup
        cases hset : setTerms row2 updates with
        | error e =>
          rw [hset] at hup
          exact absurd hup (by simp [except_bind_error])
        | ok sets =>
          rw [hset, except_bind_ok] at hup
          cases hw : SqlRenderer.pk_row row2 with
          | error e =>
            rw [hw] at hup
            exact absurd hup (by simp [except_bind_error])
          | ok w =>
            rw [hw, except_bind_ok] at hup
            injection hup with hup
            have hwterms : ∃ terms, pkTerms row2 row2.table.pks = Except.ok terms ∧
                List.Forall₂ (fun (pk : Column) s =>
                  ∃ v, dictGet row2.data pk.name = Except.ok v ∧
                    s = pk.name ++ "=" ++ SqlRenderer.val v) row2.table.pks terms ∧
                w = "where " ++ String.intercalate (" and ") terms := by
              unfold SqlRenderer.pk_row at hw
              cases hpt : pkTerms row2 row2.table.pks with
              | error e =>
                rw [hpt] at hw
                exact absurd hw (by simp [except_bind_error])
              | ok terms =>
                rw [hpt, except_bind_ok] at hw
                injection hw with hw
                exact ⟨terms, rfl, pkTerms_forall2 row2 row2.table.pks terms hpt, hw.symm⟩
            exact ⟨sets, w, rfl, setTerms_forall2 row2 updates sets hset, rfl, hwterms,
              hup.symm⟩

/-- Concrete rows for the update witness: same primary key, one changed
non-key column. -/
def tblUpd : Table :=
  { name := "t", columns := [colIdPk, colNameVarchar], keys := [], rowdata := [] }

def rowW1 : Row :=
  { table := tblUpd, data := [("id", Value.vint 1), ("name", Value.vstr ("a"))] }

def rowW2 : Row :=
  { table := tblUpd, data := [("id", Value.vint 1), ("name", Value.vstr ("b"))] }

/-- The update statement the pair above renders to. -/
def updStmtW : String :=
  "update t set name=" ++ squot ++ "b" ++ squot ++ " where id=1;"

/-- C3 witness: the concrete pair produces exactly one set clause, for the
single changed column. -/
theorem compare_rows_correct_witness :
    compare_rows rowW1 rowW2 = Except.ok (some updStmtW) ∧
    ∃ updates, changedCols rowW1 rowW2 rowW2.data = Except.ok updates ∧
      (∀ c, c ∈ updates ↔ colChanged rowW1 rowW2 c) := by
  refine ⟨by decide, ?_⟩
  obtain ⟨updates, h1, h2, h3, h4⟩ :=
    compare_rows_correct rowW1 rowW2 (some updStmtW) (by decide)
  exact ⟨updates, h1, h2⟩

/-! Self-comparison (no-op stability) development. -/

/-- A column whose native type the comparator can order. -/
def colSupported (c : Column) : Bool :=
  pyStartsWith c.dbtype ("int") || pyStartsWith c.dbtype ("varchar")

/-- One row observable without error during self comparison: every value is
non-NULL and belongs to a column of a supported native type, and every
primary-key column is supported and present in the row data. -/
def rowObservable (t : Table) (rd : List (String × Value)) : Bool :=
  rd.all (fun p => (p.2 != Value.vnull) &&
    (match t.columns.find? (fun c2 => c2.name == p.1) with
     | some c2 => colSupported c2
     | none => false)) &&
  t.pks.all (fun c2 => colSupported c2 && dictContains rd c2.name)

/-- Executable duplicate-freedom check on a name list. -/
def namesNodup : List String → Bool
  | [] => true
  | n :: rest => !(rest.contains n) && namesNodup rest

theorem namesNodup_iff (l : List String) : namesNodup l = true ↔ l.Nodup := by
  induction l with
  | nil => simp [namesNodup]
  | cons n rest ih => simp [namesNodup, List.nodup_cons, ih]

/-- A table whose self comparison is fully observable: unique column and key
names (the shape introspection guarantees) and observable rows. -/
def tableSelfOk (t : Table) : Bool :=
  namesNodup (t.columns.map (fun c => c.name)) &&
  namesNodup (t.keys.map (fun k => k.name)) &&
  t.rowdata.all (fun rd => rowObservable t rd)

/-- A database whose self comparison is fully observable. -/
def dbSelfOk (db : Database) : Bool := db.tables.all tableSelfOk

/-- The per-row facts the merge loop needs during self comparison. -/
def rowGood (r : Row) : Prop :=
  (∀ p ∈ r.data, p.2 ≠ Value.vnull) ∧
  (∀ p ∈ r.data, ∃ c2, r.table.columns.find? (fun c3 => c3.name == p.1) = some c2 ∧
     colSupported c2 = true) ∧
  (∀ col ∈ r.table.pks, colSupported col = true ∧ dictContains r.data col.name = true)

theorem sort_val_refl (dbtype : String) (v : Value)
    (hs : (pyStartsWith dbtype ("int") || pyStartsWith dbtype ("varchar")) = true)
    (hn : v ≠ Value.vnull) :
    sort_val dbtype v v = Except.ok 0 := by
  cases v with
  | vint a =>
    rw [sort_val_int_eq dbtype hs]
    rw [(cmp3_eq_zero_iff a a).mpr rfl]
  | vstr a =>
    rw [sort_val_str_eq dbtype hs]
    rw [(cmp3_eq_zero_iff a a).mpr rfl]
  | vnull => exact absurd rfl hn

theorem dictGet_mem (d : List (String × Value)) (k : String) (v : Value)
    (h : dictGet d k = Except.ok v) : (k, v) ∈ d := by
  unfold dictGet at h
  cases hf : d.find? (fun p => p.1 == k) with
  | some p =>
    rw [hf] at h
    injection h with h
    have hk : p.1 = k := by simpa using List.find?_some hf
    have hm : (p.1, p.2) ∈ d := by
      rw [Prod.mk.eta]
      exact List.mem_of_find?_eq_some hf
    rw [← hk, ← h]
    exact hm
  | none =>
    rw [hf] at h
    exact absurd h (by simp)

theorem dictContains_ok (d : List (String × Value)) (k : String)
    (h : dictContains d k = true) :
    ∃ v, dictGet d k = Except.ok v ∧ (k, v) ∈ d := by
  unfold dictContains at h
  cases hf : d.find? (fun p => p.1 == k) with
  | some p =>
    have hget : dictGet d k = Except.ok p.2 := by
      unfold dictGet
      rw [hf]
    exact ⟨p.2, hget, dictGet_mem d k p.2 hget⟩
  | none =>
    rw [hf] at h
    exact absurd h (by simp)

theorem dictLookup_eq_get (d : List (String × Value)) (k : String) (v : Value) :
    dictLookup d k = some v ↔ dictGet d k = Except.ok v := by
  unfold dictLookup dictGet
  cases hf : d.find? (fun p => p.1 == k) <;> simp

theorem find?_name_self {α : Type} (f : α → String) (l : List α)
    (hnd : (l.map f).Nodup) (x : α) (hx : x ∈ l) :
    l.find? (fun y => f y == f x) = some x := by
  induction l with
  | nil => cases hx
  | cons a l ih =>
    rcases List.mem_cons.mp hx with h | h
    · subst h
      rw [List.find?_cons_of_pos l (by simp)]
    · obtain ⟨hna, hndl⟩ := List.nodup_cons.mp hnd
      have hne : f a ≠ f x := fun hc => hna (hc ▸ List.mem_map_of_mem f h)
      rw [List.find?_cons_of_neg l (by simp [hne])]
      exact ih hndl h

theorem compare_columns_self (c : Column) : compare_columns c c = none := by
  simp [compare_columns]

theorem Key_compare_self (k : Key) : Key.compare k k = true := by
  unfold Key.compare
  rw [if_neg (by simp)]
  rw [List.all_eq_true]
  intro pq hpq
  have hz : ∀ l : List KeyPart, ∀ q ∈ l.zip l, q.1 = q.2 := by
    intro l
    induction l with
    | nil => intro q hq; cases hq
    | cons p l ih =>
      intro q hq
      rcases List.mem_cons.mp hq with h | h
      · rw [h]
      · exact ih q h
    
  have := hz k.parts pq hpq
  rw [this]
  simp [KeyPart.compare]

theorem rowObservable_good (t : Table) (rd : List (String × Value))
    (h : rowObservable t rd = true) : rowGood (Row.mk t rd) := by
  unfold rowObservable at h
  rw [Bool.and_eq_true] at h
  obtain ⟨h1, h2⟩ := h
  rw [List.all_eq_true] at h1 h2
  refine ⟨?_, ?_, ?_⟩
  · intro p hp
    have hh := h1 p hp
    rw [Bool.and_eq_true] at hh
    exact bne_iff_ne.mp hh.1
  · intro p hp
    have hh := h1 p hp
    rw [Bool.and_eq_true] at hh
    have hh := hh.2
    cases hfc : t.columns.find? (fun c2 => c2.name == p.1) with
    | some c2 =>
      rw [hfc] at hh
      exact ⟨c2, rfl, hh⟩
    | none =>
      rw [hfc] at hh
      exact absurd hh (by simp)
  · intro col hcol
    have hh := h2 col hcol
    rw [Bool.and_eq_true] at hh
    exact hh

theorem sort_pks_go_refl (r : Row)
    (hvals : ∀ p ∈ r.data, p.2 ≠ Value.vnull) :
    ∀ l : List Column,
      (∀ col ∈ l, colSupported col = true ∧ dictContains r.data col.name = true) →
      sort_pks_go r r l l = Except.ok 0 := by
  intro l
  induction l with
  | nil => intro _; rfl
  | cons col rest ih =>
    intro hl
    obtain ⟨hsupp, hcont⟩ := hl col (List.mem_cons_self _ _)
    obtain ⟨v, hget, hmem⟩ := dictContains_ok r.data col.name hcont
    have hv0 : sort_val col.dbtype v v = Except.ok 0 :=
      sort_val_refl col.dbtype v hsupp (hvals _ hmem)
    have hrest := ih (fun c hc => hl c (List.mem_cons_of_mem _ hc))
    simp only [sort_pks_go, hget, except_bind_ok, hv0, hrest]
    rfl

theorem sort_pks_refl (r : Row)
    (hvals : ∀ p ∈ r.data, p.2 ≠ Value.vnull)
    (hpks : ∀ col ∈ r.table.pks, colSupported col = true ∧
      dictContains r.data col.name = true) :
    sort_pks r r = Except.ok 0 := by
  unfold sort_pks
  exact sort_pks_go_refl r hvals r.table.pks hpks

theorem changedCols_refl (r : Row)
    (hvals : ∀ p ∈ r.data, p.2 ≠ Value.vnull)
    (hcols : ∀ p ∈ r.data, ∃ c2,
      r.table.columns.find? (fun c3 => c3.name == p.1) = some c2 ∧
      colSupported c2 = true) :
    ∀ l, (∀ p ∈ l, p ∈ r.data) → changedCols r r l = Except.ok [] := by
  intro l
  induction l with
  | nil => intro _; rfl
  | cons p rest ih =>
    intro hsub
    obtain ⟨col, v⟩ := p
    have hpmem : (col, v) ∈ r.data := hsub _ (List.mem_cons_self _ _)
    have hcont : dictContains r.data col = true := (dictContains_iff _ _).mpr ⟨v, hpmem⟩
    obtain ⟨v0, hget, hmem0⟩ := dictContains_ok r.data col hcont
    have hlook : dictLookup r.data col = some v0 := (dictLookup_eq_get _ _ _).mpr hget
    obtain ⟨c2, hfc, hc2supp⟩ := hcols _ hpmem
    have hdt : Row.dbtype r col = Except.ok c2.dbtype := by
      unfold Row.dbtype Row.md
      simp only [hfc, except_bind_ok]
    have hsv : sort_val c2.dbtype v0 v0 = Except.ok 0 :=
      sort_val_refl c2.dbtype v0 hc2supp (hvals _ hmem0)
    have hrec := ih (fun q hq => hsub q (List.mem_cons_of_mem _ hq))
    simp only [changedCols, hlook, hdt, except_bind_ok, hget, hsv, hrec]
    rfl

theorem compare_rows_refl (r : Row)
    (hvals : ∀ p ∈ r.data, p.2 ≠ Value.vnull)
    (hcols : ∀ p ∈ r.data, ∃ c2,
      r.table.columns.find? (fun c3 => c3.name == p.1) = some c2 ∧
      colSupported c2 = true) :
    compare_rows r r = Except.ok none := by
  unfold compare_rows
  rw [changedCols_refl r hvals hcols r.data (fun p hp => hp), except_bind_ok]
  rfl

theorem compare_data_loop_nil (fuel : Nat) (acc : List (Option String))
    (row1 row2 : Option Row) :
    compare_data_loop (fuel + 1) [] [] 0 row1 row2 acc = Except.ok acc := rfl

theorem compare_data_loop_cons (fuel : Nat) (r1 r2 : Row) (rest1 rest2 : List Row)
    (acc : List (Option String)) (row1 row2 : Option Row)
    (h0 : sort_pks r1 r2 = Except.ok 0)
    (hcr : compare_rows r1 r2 = Except.ok none) :
    compare_data_loop (fuel + 1) (r1 :: rest1) (r2 :: rest2) 0 row1 row2 acc =
    compare_data_loop fuel rest1 rest2 0 (some r1) (some r2) (acc ++ [none]) := by
  simp only [compare_data_loop, List.head?_cons, List.tail_cons, ge_iff_le,
    le_refl, if_true, h0, except_bind_ok, hcr]

theorem compare_data_loop_refl :
    ∀ (fuel : Nat) (l : List Row) (acc : List (Option String))
      (row1 row2 : Option Row),
      (∀ r ∈ l, rowGood r) →
      ∃ ret, compare_data_loop fuel l l 0 row1 row2 acc = Except.ok ret ∧
        ret.filterMap id = acc.filterMap id := by
  intro fuel
  induction fuel with
  | zero => exact fun l acc _ _ _ => ⟨acc, rfl, rfl⟩
  | succ fuel ih =>
    intro l acc row1 row2 hl
    cases l with
    | nil => exact ⟨acc, compare_data_loop_nil fuel acc row1 row2, rfl⟩
    | cons r rest =>
      obtain ⟨hvals, hcols, hpks⟩ := hl r (List.mem_cons_self _ _)
      have hsp : sort_pks r r = Except.ok 0 := sort_pks_refl r hvals hpks
      have hcr : compare_rows r r = Except.ok none := compare_rows_refl r hvals hcols
      obtain ⟨ret, hret, hfm⟩ :=
        ih rest (acc ++ [none]) (some r) (some r)
          (fun x hx => hl x (List.mem_cons_of_mem _ hx))
      refine ⟨ret, ?_, ?_⟩
      · rw [compare_data_loop_cons fuel r r rest rest acc row1 row2 hsp hcr]
        exact hret
      · rw [hfm]
        simp

theorem compare_data_refl (t : Table) (h : tableSelfOk t = true) :
    ∃ ret, compare_data t t = Except.ok ret ∧ ret.filterMap id = [] := by
  unfold tableSelfOk at h
  rw [Bool.and_eq_true, Bool.and_eq_true] at h
  obtain ⟨⟨_, _⟩, hrows⟩ := h
  rw [List.all_eq_true] at hrows
  have hgood : ∀ r ∈ t.rows, rowGood r := by
    intro r hr
    unfold Table.rows at hr
    obtain ⟨rd, hrd, hmk⟩ := List.mem_map.mp hr
    rw [← hmk]
    exact rowObservable_good t rd (hrows rd hrd)
  obtain ⟨ret, hret, hfm⟩ := compare_data_loop_refl 10 t.rows [] none none hgood
  exact ⟨ret, hret, by simpa using hfm⟩

theorem compare_tables_refl (t : Table)
    (hndC : (t.columns.map (fun c => c.name)).Nodup)
    (hndK : (t.keys.map (fun k => k.name)).Nodup) :
    compare_tables t t = Except.ok none := by
  have hcd : ∀ l, (∀ c ∈ l, c ∈ t.columns) → colDeltas t l = ([], []) := by
    intro l
    induction l with
    | nil => intro _; rfl
    | cons c l ih =>
      intro hsub
      have hfind : t.columnOpt c.name = some c := by
        unfold Table.columnOpt
        exact find?_name_self (fun x => x.name) t.columns hndC c
          (hsub c (List.mem_cons_self _ _))
      simp only [colDeltas, hfind, compare_columns_self,
        ih (fun x hx => hsub x (List.mem_cons_of_mem _ hx))]
  have hca : ∀ l, (∀ c ∈ l, c ∈ t.columns) → colAdditions t l = [] := by
    intro l
    induction l with
    | nil => intro _; rfl
    | cons c l ih =>
      intro hsub
      have hfind : t.columnOpt c.name = some c := by
        unfold Table.columnOpt
        exact find?_name_self (fun x => x.name) t.columns hndC c
          (hsub c (List.mem_cons_self _ _))
      simp only [colAdditions, hfind,
        ih (fun x hx => hsub x (List.mem_cons_of_mem _ hx))]
  have hk1 : ∀ l, (∀ k ∈ l, k ∈ t.keys) → ctkFirst t l = [] := by
    intro l
    induction l with
    | nil => intro _; rfl
    | cons k l ih =>
      intro hsub
      have hfind : t.keyOpt k.name = some k := by
        unfold Table.keyOpt
        exact find?_name_self (fun x => x.name) t.keys hndK k
          (hsub k (List.mem_cons_self _ _))
      simp only [ctkFirst, hfind, Key_compare_self, Bool.not_true,
        Bool.false_eq_true, if_false, List.nil_append,
        ih (fun x hx => hsub x (List.mem_cons_of_mem _ hx))]
  have hk2 : ∀ l, (∀ k ∈ l, k ∈ t.keys) → ctkSecond t l = [] := by
    intro l
    induction l with
    | nil => intro _; rfl
    | cons k l ih =>
      intro hsub
      have hfind : t.keyOpt k.name = some k := by
        unfold Table.keyOpt
        exact find?_name_self (fun x => x.name) t.keys hndK k
          (hsub k (List.mem_cons_self _ _))
      simp only [ctkSecond, hfind,
        ih (fun x hx => hsub x (List.mem_cons_of_mem _ hx))]
  have hctk : compare_table_keys t t = [] := by
    unfold compare_table_keys
    rw [hk1 t.keys (fun k h => h), hk2 t.keys (fun k h => h)]
    rfl
  unfold compare_tables
  rw [hcd t.columns (fun c h => h), hca t.columns (fun c h => h), hctk]
  rfl

theorem tableOpt_name_mem (db : Database) (nm : String)
    (h : nm ∈ db.tablenames) :
    ∃ t, db.tableOpt nm = some t ∧ t ∈ db.tables := by
  unfold Database.tablenames at h
  obtain ⟨t0, ht0, hname⟩ := List.mem_map.mp h
  cases hf : db.tableOpt nm with
  | some t => exact ⟨t, rfl, List.mem_of_find?_eq_some hf⟩
  | none =>
    unfold Database.tableOpt at hf
    rw [List.find?_eq_none] at hf
    exact absurd (show (t0.name == nm) = true by simp [hname]) (hf t0 ht0)

theorem cdbFirst_self (db : Database) (hok : dbSelfOk db = true) :
    ∀ l, (∀ nm ∈ l, nm ∈ db.tablenames) →
    ∃ outs, cdbFirst db db l = Except.ok outs ∧ outs.filterMap id = [] := by
  intro l
  induction l with
  | nil => exact fun _ => ⟨[], rfl, rfl⟩
  | cons nm l ih =>
    intro hsub
    obtain ⟨tt, htt, httmem⟩ := tableOpt_name_mem db nm (hsub nm (List.mem_cons_self _ _))
    have htsok : tableSelfOk tt = true := by
      unfold dbSelfOk at hok
      rw [List.all_eq_true] at hok
      exact hok tt httmem
    have hnods := htsok
    rw [tableSelfOk, Bool.and_eq_true, Bool.and_eq_true] at hnods
    have hct : compare_tables tt tt = Except.ok none :=
      compare_tables_refl tt ((namesNodup_iff _).mp hnods.1.1)
        ((namesNodup_iff _).mp hnods.1.2)
    have hdbt : Database.table db nm = Except.ok tt := by
      unfold Database.table
      rw [htt]
    obtain ⟨outs, houts, hfm⟩ := ih (fun x hx => hsub x (List.mem_cons_of_mem _ hx))
    refine ⟨none :: outs, ?_, by simp [hfm]⟩
    simp only [cdbFirst, htt, hdbt, except_bind_ok, hct, houts]

theorem cdbSecond_self (db : Database) :
    ∀ l, (∀ nm ∈ l, nm ∈ db.tablenames) → cdbSecond db db l = Except.ok [] := by
  intro l
  induction l with
  | nil => exact fun _ => rfl
  | cons nm l ih =>
    intro hsub
    obtain ⟨tt, htt, _⟩ := tableOpt_name_mem db nm (hsub nm (List.mem_cons_self _ _))
    simp only [cdbSecond, htt]
    exact ih (fun x hx => hsub x (List.mem_cons_of_mem _ hx))

theorem dataInner_self (db : Database) (hok : dbSelfOk db = true) (t1 : String) :
    ∀ l, (∀ nm ∈ l, nm ∈ db.tablenames) →
    dataInner db db t1 l = Except.ok [] := by
  intro l
  induction l with
  | nil => exact fun _ => rfl
  | cons t2 l ih =>
    intro hsub
    have hrec := ih (fun x hx => hsub x (List.mem_cons_of_mem _ hx))
    by_cases he : (t1 == t2) = true
    · have heq : t1 = t2 := by simpa using he
      subst heq
      obtain ⟨tt, htt, httmem⟩ := tableOpt_name_mem db t1 (hsub t1 (List.mem_cons_self _ _))
      have hdbt : Database.table db t1 = Except.ok tt := by
        unfold Database.table
        rw [htt]
      have htsok : tableSelfOk tt = true := by
        unfold dbSelfOk at hok
        rw [List.all_eq_true] at hok
        exact hok tt httmem
      obtain ⟨ret, hret, hfm⟩ := compare_data_refl tt htsok
      simp only [dataInner, he, hdbt, except_bind_ok, hret, hfm, hrec]
      rfl
    · have he2 : (t1 == t2) = false := by simpa using he
      simp only [dataInner, he2, except_bind_ok, hrec]
      rfl

theorem dataOuter_self (db : Database) (hok : dbSelfOk db = true) :
    ∀ l, (∀ nm ∈ l, nm ∈ db.tablenames) →
    dataOuter db db l = Except.ok [] := by
  intro l
  induction l with
  | nil => exact fun _ => rfl
  | cons t1 l ih =>
    intro hsub
    have hin := dataInner_self db hok t1 db.tablenames (fun x hx => hx)
    have hrec := ih (fun x hx => hsub x (List.mem_cons_of_mem _ hx))
    simp only [dataOuter, hin, except_bind_ok, hrec]
    rfl

/-- A database holding a NULL value in a nullable varchar column. -/
def tableNullSelf : Table :=
  { name := "t",
    columns := [colIdPk,
      { name := "x", key := "", auto_increment := false, nullable := true,
        dbtype := "varchar(32)" }],
    keys := [],
    rowdata := [[("id", Value.vint 1), ("x", Value.vnull)]] }

def dbNullSelf : Database := { tables := [tableNullSelf] }

/-- C8 counterexample: comparing this database against itself does not yield
an empty statement sequence — the row comparison hits the NULL value, the
greater-than test raises TypeError and the whole run aborts. -/
theorem selfcompare_null_raises :
    «__compare» dbNullSelf dbNullSelf = Except.error PyError.typeError ∧
    «__compare» dbNullSelf dbNullSelf ≠ Except.ok [] :=
  ⟨by decide, by decide⟩

/-- C8 amended: comparing a database against itself — the same table list,
schema metadata and row data on both sides — yields an empty statement
sequence, provided the comparison stays inside the domain of the value
comparator: every row value is non-NULL, every column referenced by row data
or primary keys has a supported native type, and column and key names are
unique per table (as database introspection guarantees). -/
theorem selfcompare_empty (db : Database) (h : dbSelfOk db = true) :
    «__compare» db db = Except.ok [] := by
  obtain ⟨outs, houts, hfm⟩ :=
    cdbFirst_self db h db.tablenames (fun x hx => hx)
  have hsec : cdbSecond db db db.tablenames = Except.ok [] :=
    cdbSecond_self db db.tablenames (fun x hx => hx)
  have hdata : dataOuter db db db.tablenames = Except.ok [] :=
    dataOuter_self db h db.tablenames (fun x hx => hx)
  unfold «__compare» compare_databases
  simp only [houts, hsec, except_bind_ok, hdata]
  simp [hfm]

/-- A well-formed single-table database with one non-NULL row. -/
def tableSelfW : Table :=
  { name := "t", columns := [colIdPk, colNameVarchar], keys := [],
    rowdata := [[("id", Value.vint 1), ("name", Value.vstr ("a"))]] }

def dbSelfW : Database := { tables := [tableSelfW] }

/-- C8 witness: the concrete well-formed database self-compares to the empty
statement sequence. -/
theorem selfcompare_empty_witness :
    dbSelfOk dbSelfW = true ∧ «__compare» dbSelfW dbSelfW = Except.ok [] :=
  ⟨by decide, selfcompare_empty dbSelfW (by decide)⟩
